import Mathlib

/-!
Shallow embedding of the data-preparation / panel-construction pipeline of
this repository: the function `carregar_dados` of `src/app.py` and the
loading/cleaning section of `src/codigo/analise_exploratoria.py`.

Modelling conventions:

* pandas cells are exact: finite float values are rationals (`ℚ`); a missing
  cell (pandas `NaN`) in the `IGC` column is `none : Option ℚ`.
* values produced by `np.log` live in `PVal`, which adds the IEEE special
  values `nan`, `-inf`, `+inf` to the rationals; `np.log` itself is
  abstracted by a parameter `lg : ℚ → ℚ` standing for the natural logarithm
  restricted to positive arguments, and `pyLog` adds numpy's behaviour on
  the rest of the domain (`log 0 = -inf`, `log x = nan` for `x < 0`,
  `log NaN = NaN`).
* `df.sort_values(["Universidade", "Ano"])` sorts by several keys, which
  pandas performs with a stable lexicographic sort (`numpy.lexsort`); it is
  embedded as a stable insertion sort by the key `(Universidade, Ano)`,
  strings compared pointwise by code point as in Python.
* `groupby("Universidade")[col].transform(f)` groups rows by the value of
  `Universidade` (order of appearance preserved) and realigns the result
  with the original positions; it is embedded by `transGo`, which walks the
  row list keeping, for every entity name, the number of rows of that
  entity already passed.
* `Series.interpolate()` (pandas `method='linear'`) treats the values as
  equally spaced, ignoring the index: an interior run of missing values is
  filled linearly between the nearest observed neighbours by position,
  missing values after the last observed one are set to that last value,
  and leading missing values are left missing.  `Series.ffill()` carries
  the last observed value forward.  `df.dropna()` removes rows with at
  least one `NaN` cell; `-inf` and `+inf` are not `NaN` and are kept.
-/

/-- IEEE-style value of a pandas float column: `nan`, `-inf`, `+inf`
or a finite (rational) number. -/
inductive PVal where
  | nan : PVal
  | ninf : PVal
  | pinf : PVal
  | num (x : ℚ) : PVal
deriving DecidableEq

/-- Whether a `PVal` is the IEEE `NaN` (the only value pandas `dropna`
treats as missing; infinities are not missing). -/
def PVal.isNan : PVal → Bool
  | .nan => true
  | _ => false

/-- IEEE multiplication on `PVal` (`nan` absorbs; `±inf * 0 = nan`;
`±inf` times a nonzero finite value keeps the sign rule). -/
def PVal.mul : PVal → PVal → PVal
  | .nan, _ => .nan
  | _, .nan => .nan
  | .num x, .num y => .num (x * y)
  | .ninf, .num y => if 0 < y then .ninf else if y = 0 then .nan else .pinf
  | .num x, .ninf => if 0 < x then .ninf else if x = 0 then .nan else .pinf
  | .pinf, .num y => if 0 < y then .pinf else if y = 0 then .nan else .ninf
  | .num x, .pinf => if 0 < x then .pinf else if x = 0 then .nan else .ninf
  | .ninf, .ninf => .pinf
  | .pinf, .pinf => .pinf
  | .ninf, .pinf => .ninf
  | .pinf, .ninf => .ninf

/-- Embedding of `np.log` applied to one cell: `lg` stands for the natural
logarithm on positive rationals; numpy returns `-inf` at `0`, `nan` on
negative input, and `nan` on a missing cell. -/
def pyLog (lg : ℚ → ℚ) : Option ℚ → PVal
  | none => PVal.nan
  | some x => if 0 < x then PVal.num (lg x) else if x = 0 then PVal.ninf else PVal.nan

/-- One input row after column normalization: the four canonical columns
used by the pipeline (`src/app.py` lines 70-75). -/
structure Row where
  Universidade : String
  Ano : ℤ
  Orcamento : ℚ
  IGC : Option ℚ
deriving DecidableEq

/-- Sort key order of `df.sort_values(["Universidade", "Ano"])`:
lexicographic on the pair, strings compared by code points
(`List.Lex (· < ·)` on the character data is exactly Python's string
comparison by code points). -/
def rowLE (a b : Row) : Prop :=
  List.Lex (· < ·) a.Universidade.data b.Universidade.data ∨
    (a.Universidade = b.Universidade ∧ a.Ano ≤ b.Ano)

instance : DecidableRel rowLE := fun a b => by
  unfold rowLE; infer_instance

/-- `df = df.sort_values(["Universidade", "Ano"])` (`src/app.py` line 77,
`analise_exploratoria.py` line 45): stable sort by `(Universidade, Ano)`. -/
def sortRows (l : List Row) : List Row := List.insertionSort rowLE l

/-- Position and value of the nearest observed entry strictly before
position `i` (used by linear interpolation and forward fill). -/
def prevVal (l : List (Option ℚ)) (i : ℕ) : Option (ℕ × ℚ) :=
  (List.range i).foldl
    (fun acc p => match l.getD p none with
      | some v => some (p, v)
      | none => acc) none

/-- Position and value of the nearest observed entry strictly after
position `i`. -/
def nextVal (l : List (Option ℚ)) (i : ℕ) : Option (ℕ × ℚ) :=
  (List.range l.length).findSome? (fun n =>
    if i < n then (l.getD n none).map (fun v => (n, v)) else none)

/-- `Series.interpolate()` with pandas' default `method='linear'`: values
are treated as equally spaced; an interior missing entry between observed
neighbours at positions `p < i < n` becomes
`vp + (vn - vp) * (i - p) / (n - p)`; missing entries after the last
observed value are set to that value; leading missing entries stay
missing. -/
def interpolateList (l : List (Option ℚ)) : List (Option ℚ) :=
  (List.range l.length).map (fun i =>
    match l.getD i none with
    | some v => some v
    | none =>
      match prevVal l i with
      | none => none
      | some (p, vp) =>
        match nextVal l i with
        | none => some vp
        | some (n, vn) => some (vp + (vn - vp) * ((i : ℚ) - (p : ℚ)) / ((n : ℚ) - (p : ℚ))))

/-- `Series.ffill()`: each missing entry takes the nearest observed value
before it; entries with no prior observation stay missing. -/
def ffillList (l : List (Option ℚ)) : List (Option ℚ) :=
  (List.range l.length).map (fun i =>
    match l.getD i none with
    | some v => some v
    | none => (prevVal l i).map Prod.snd)

/-- The cleaning `lambda x: x.interpolate().ffill()` of `src/app.py`
line 81. -/
def interpFfill (l : List (Option ℚ)) : List (Option ℚ) := ffillList (interpolateList l)

/-- The `IGC` column of the rows of entity `u`, in order of appearance
(the series a `groupby("Universidade")["IGC"]` group holds). -/
def entityIGC (l : List Row) (u : String) : List (Option ℚ) :=
  (l.filter (fun r => r.Universidade == u)).map (fun r => r.IGC)

/-- Replace the `IGC` cell of one row. -/
def setIGC (r : Row) (v : Option ℚ) : Row := { r with IGC := v }

/-- Bump the per-entity row counter at name `u`. -/
def bump (cnt : String → ℕ) (u : String) : String → ℕ :=
  fun v => if v = u then cnt u + 1 else cnt v

/-- Worker of `groupby("Universidade")["IGC"].transform(f)`: walks the row
list; a row of entity `u` whose `cnt u` predecessors of the same entity
were already passed receives entry `cnt u` of `f` applied to entity `u`'s
full `IGC` series (taken from the whole frame `l₀`). -/
def transGo (f : List (Option ℚ) → List (Option ℚ)) (l₀ : List Row)
    (cnt : String → ℕ) : List Row → List Row
  | [] => []
  | r :: t =>
    setIGC r ((f (entityIGC l₀ r.Universidade)).getD (cnt r.Universidade) none) ::
      transGo f l₀ (bump cnt r.Universidade) t

/-- `df["IGC"] = df.groupby("Universidade")["IGC"].transform(f)`
(`src/app.py` lines 80-81; `analise_exploratoria.py` lines 46-47 apply it
twice with `f` = interpolate and `f` = ffill). -/
def transformIGC (f : List (Option ℚ) → List (Option ℚ)) (l : List Row) : List Row :=
  transGo f l (fun _ => 0) l

/-- One row of the frame `carregar_dados` builds: the four canonical
columns plus the six derived columns of `src/app.py` lines 84-93. -/
structure PanelRow where
  Universidade : String
  Ano : ℤ
  Orcamento : ℚ
  IGC : Option ℚ
  Orcamento_Milhoes : ℚ
  ln_Orcamento : PVal
  ln_IGC : PVal
  ln_Orcamento_lag : PVal
  Pos_Teto : ℤ
  Interacao : PVal
deriving DecidableEq

/-- The rows of entity `u`, in order of appearance. -/
def entityRows (l : List Row) (u : String) : List Row :=
  l.filter (fun r => r.Universidade == u)

/-- The derived columns of `src/app.py` lines 84-93 for the row `r` of the
cleaned frame `c`, given that `k` rows of the same entity precede it:
`Orcamento_Milhoes = Orcamento / 1_000_000`, `ln_Orcamento = log Orcamento`,
`ln_IGC = log IGC`, `ln_Orcamento_lag = groupby("Universidade")
["ln_Orcamento"].shift(1)` (block `NaN` at the first row of each entity),
`Pos_Teto = (Ano >= 2017).astype(int)` and
`Interacao = ln_Orcamento_lag * Pos_Teto`. -/
def panelRowOf (lg : ℚ → ℚ) (c : List Row) (r : Row) (k : ℕ) : PanelRow :=
  let lag : PVal :=
    if k = 0 then PVal.nan
    else
      match (entityRows c r.Universidade).get? (k - 1) with
      | some rp => pyLog lg (some rp.Orcamento)
      | none => PVal.nan
  let pos : ℤ := if 2017 ≤ r.Ano then 1 else 0
  { Universidade := r.Universidade
    Ano := r.Ano
    Orcamento := r.Orcamento
    IGC := r.IGC
    Orcamento_Milhoes := r.Orcamento / 1000000
    ln_Orcamento := pyLog lg (some r.Orcamento)
    ln_IGC := pyLog lg r.IGC
    ln_Orcamento_lag := lag
    Pos_Teto := pos
    Interacao := PVal.mul lag (PVal.num (pos : ℚ)) }

/-- Worker computing the derived columns row by row, keeping the count of
rows of each entity already passed (the group-internal position that
`groupby(...).shift(1)` depends on). -/
def deriveGo (lg : ℚ → ℚ) (c : List Row) (cnt : String → ℕ) : List Row → List PanelRow
  | [] => []
  | r :: t => panelRowOf lg c r (cnt r.Universidade) :: deriveGo lg c (bump cnt r.Universidade) t

/-- All derived columns of `src/app.py` lines 84-93 over the cleaned frame. -/
def deriveRows (lg : ℚ → ℚ) (c : List Row) : List PanelRow := deriveGo lg c (fun _ => 0) c

/-- Whether `df.dropna()` removes the row: some cell is missing — `NaN` in
`IGC` propagated from cleaning, or `NaN` in a derived float column.
Infinities are not missing. -/
def hasNA (r : PanelRow) : Bool :=
  r.IGC.isNone || r.ln_Orcamento.isNan || r.ln_IGC.isNan ||
    r.ln_Orcamento_lag.isNan || r.Interacao.isNan

/-- The frame of `src/app.py` line 93: sorted, `IGC`-cleaned, with all
derived columns, before `dropna`. -/
def appDerived (lg : ℚ → ℚ) (rows : List Row) : List PanelRow :=
  deriveRows lg (transformIGC interpFfill (sortRows rows))

/-- `carregar_dados` of `src/app.py` (lines 77-95) after parsing and column
normalization: sort, clean `IGC`, derive, and `return df.dropna()`. -/
def carregar_dados (lg : ℚ → ℚ) (rows : List Row) : List PanelRow :=
  (appDerived lg rows).filter (fun r => !(hasNA r))

/-- One row of the frame `analise_exploratoria.py` builds (lines 45-51 and
112-115): no lag column and no `dropna`; `Interacao` uses the
contemporaneous `ln_Orcamento`. -/
structure AnaRow where
  Universidade : String
  Ano : ℤ
  Orcamento : ℚ
  IGC : Option ℚ
  ln_Orcamento : PVal
  ln_IGC : PVal
  Pos_Teto : ℤ
  Interacao : PVal
deriving DecidableEq

/-- Derived columns of `analise_exploratoria.py` (lines 50-51 and 112-115)
for one cleaned row. -/
def anaRowOf (lg : ℚ → ℚ) (r : Row) : AnaRow :=
  let pos : ℤ := if 2017 ≤ r.Ano then 1 else 0
  { Universidade := r.Universidade
    Ano := r.Ano
    Orcamento := r.Orcamento
    IGC := r.IGC
    ln_Orcamento := pyLog lg (some r.Orcamento)
    ln_IGC := pyLog lg r.IGC
    Pos_Teto := pos
    Interacao := PVal.mul (pyLog lg (some r.Orcamento)) (PVal.num (pos : ℚ)) }

/-- The frame of `analise_exploratoria.py` after lines 45-51 and 112-115:
sort, interpolate `IGC`, forward-fill `IGC` (two separate transforms),
logs, `Pos_Teto` and the contemporaneous `Interacao`; no row is dropped. -/
def analise_df (lg : ℚ → ℚ) (rows : List Row) : List AnaRow :=
  (transformIGC ffillList (transformIGC interpolateList (sortRows rows))).map (anaRowOf lg)

/-- The columns both drafts compute in their shared cleaning steps. -/
structure CleanRow where
  Universidade : String
  Ano : ℤ
  Orcamento : ℚ
  IGC : Option ℚ
  ln_Orcamento : PVal
  ln_IGC : PVal
deriving DecidableEq

/-- Projection of a cleaned row onto the shared columns with its logs. -/
def cleanRowOf (lg : ℚ → ℚ) (r : Row) : CleanRow :=
  { Universidade := r.Universidade
    Ano := r.Ano
    Orcamento := r.Orcamento
    IGC := r.IGC
    ln_Orcamento := pyLog lg (some r.Orcamento)
    ln_IGC := pyLog lg r.IGC }

/-- Shared cleaning steps as written in `src/app.py` lines 77-86: one
transform `x.interpolate().ffill()`, then the log columns. -/
def sharedCleanApp (lg : ℚ → ℚ) (rows : List Row) : List CleanRow :=
  (transformIGC interpFfill (sortRows rows)).map (cleanRowOf lg)

/-- Shared cleaning steps as written in `analise_exploratoria.py` lines
45-51: a transform with `interpolate` alone, then a second transform with
`ffill`, then the log columns. -/
def sharedCleanAE (lg : ℚ → ℚ) (rows : List Row) : List CleanRow :=
  (transformIGC ffillList (transformIGC interpolateList (sortRows rows))).map (cleanRowOf lg)

/-- The column rename map of `src/app.py` lines 70-75 applied to one
column name (unmapped names pass through). -/
def rename_app (c : String) : String :=
  if c = "Orçamento(GND 3+4)" then "Orcamento"
  else if c = "IGC (Contínuo)" then "IGC"
  else if c = "IGC (Continuo)" then "IGC"
  else if c = "Ano " then "Ano"
  else c

/-- `df.columns.str.strip()` followed by the rename map (`src/app.py`
lines 68-75). -/
def normalizeColumns_app (cols : List String) : List String :=
  (cols.map (fun c => c.trim)).map rename_app

/-- The dictionary `mapa` of `analise_exploratoria.py` lines 39-42 applied
to one column name. -/
def rename_ae (c : String) : String :=
  if c = "Orçamento(GND 3+4)" then "Orcamento"
  else if c = "IGC (Contínuo)" then "IGC"
  else if c = "IGC (Continuo)" then "IGC"
  else if c = "Ano " then "Ano"
  else c

/-- `df.columns.str.strip()` followed by `df.rename(columns=mapa)`
(`analise_exploratoria.py` lines 37-43). -/
def normalizeColumns_ae (cols : List String) : List String :=
  (cols.map (fun c => c.trim)).map rename_ae

/-- A successfully parsed table (column names and typed rows). -/
structure ParsedTable where
  cols : List String
  rows : List Row
deriving DecidableEq

/-- Python's `name.endswith(".csv")`, computed on code points. -/
def endsWithCsv (name : String) : Bool := ".csv".data.isSuffixOf name.data

/-- The parsing step of `carregar_dados` (`src/app.py` lines 60-66).  Each
parse attempt is abstracted by its outcome: `none` when `pandas` raises
(unparseable input, or no columns to parse), `some t` when it returns a
frame.  A `.csv` name tries the comma parse, and on failure (the bare
`except:`) the semicolon/Latin-1 parse, whose failure propagates; any other
name goes to `read_excel` (first sheet). -/
def ingest (name : String) (commaParse semiParse excelParse : Option ParsedTable) :
    Option ParsedTable :=
  if endsWithCsv name then
    match commaParse with
    | some t => some t
    | none => semiParse
  else excelParse

/-- The canonical columns `carregar_dados` requires, in the order its
statements first touch them: `sort_values(["Universidade", "Ano"])`
(line 77), `groupby("Universidade")["IGC"]` (line 80), `df["Orcamento"]`
(line 84). -/
def requiredColumns : List String := ["Universidade", "Ano", "IGC", "Orcamento"]

/-- Panel construction over a parsed, normalized table, with pandas'
column-lookup failure made explicit: a missing required column makes the
first statement touching it raise a `KeyError` naming that column
(modelled as `Except.error` carrying the column name). -/
def buildPanelChecked (lg : ℚ → ℚ) (cols : List String) (rows : List Row) :
    Except String (List PanelRow) :=
  match requiredColumns.find? (fun c => !(cols.contains c)) with
  | some c => Except.error c
  | none => Except.ok (carregar_dados lg rows)

theorem length_interpolateList (l : List (Option ℚ)) :
    (interpolateList l).length = l.length := by
  simp [interpolateList]

theorem length_ffillList (l : List (Option ℚ)) :
    (ffillList l).length = l.length := by
  simp [ffillList]

theorem length_interpFfill (l : List (Option ℚ)) :
    (interpFfill l).length = l.length := by
  simp [interpFfill, length_ffillList, length_interpolateList]

theorem setIGC_Universidade (r : Row) (v : Option ℚ) :
    (setIGC r v).Universidade = r.Universidade := rfl

theorem setIGC_IGC (r : Row) (v : Option ℚ) : (setIGC r v).IGC = v := rfl

theorem setIGC_setIGC (r : Row) (v w : Option ℚ) : setIGC (setIGC r v) w = setIGC r w := rfl

theorem transGo_filter (f : List (Option ℚ) → List (Option ℚ)) (l₀ : List Row) (u : String) :
    ∀ (t : List Row) (cnt : String → ℕ),
      (transGo f l₀ cnt t).filter (fun r => r.Universidade == u) =
        (List.enumFrom (cnt u) (t.filter (fun r => r.Universidade == u))).map
          (fun kr => setIGC kr.2 ((f (entityIGC l₀ u)).getD kr.1 none))
  | [], cnt => rfl
  | r :: t, cnt => by
    by_cases h : r.Universidade = u
    · subst h
      rw [transGo, List.filter_cons, List.filter_cons]
      have hb : bump cnt r.Universidade r.Universidade = cnt r.Universidade + 1 := by
        simp [bump]
      rw [transGo_filter f l₀ r.Universidade t (bump cnt r.Universidade), hb]
      simp [setIGC_Universidade, List.enumFrom_cons]
    · rw [transGo, List.filter_cons, List.filter_cons]
      have hbe : (r.Universidade == u) = false := by
        simp [h]
      have hb : bump cnt r.Universidade u = cnt u := by
        show (if u = r.Universidade then cnt r.Universidade + 1 else cnt u) = cnt u
        rw [if_neg]
        intro hh
        exact h hh.symm
      rw [transGo_filter f l₀ u t (bump cnt r.Universidade), hb]
      simp [setIGC_Universidade, hbe]

theorem map_enumFrom_getD (v : List (Option ℚ)) :
    ∀ (E : List Row) (j : ℕ), v.length = j + E.length →
      (List.enumFrom j E).map (fun kr : ℕ × Row => (v.getD kr.1 none)) = v.drop j
  | [], j, h => by
    have hj : v.length = j := by simpa using h
    simp [List.enumFrom, ← hj, List.drop_length]
  | x :: E, j, h => by
    rw [List.enumFrom_cons, List.map_cons]
    have hj : j < v.length := by
      simp only [List.length_cons] at h
      omega
    have h1 : v.length = (j + 1) + E.length := by
      simp only [List.length_cons] at h
      omega
    rw [map_enumFrom_getD v E (j + 1) h1]
    rw [List.getD_eq_getElem?_getD, List.getElem?_eq_getElem hj]
    exact List.getElem_cons_drop v j hj

theorem entityIGC_transGo (f : List (Option ℚ) → List (Option ℚ)) (l₀ : List Row)
    (u : String) (t : List Row) (cnt : String → ℕ) :
    entityIGC (transGo f l₀ cnt t) u =
      (List.enumFrom (cnt u) (t.filter (fun r => r.Universidade == u))).map
        (fun kr => ((f (entityIGC l₀ u)).getD kr.1 none)) := by
  rw [entityIGC, transGo_filter, List.map_map]
  rfl

theorem entityIGC_transformIGC (f : List (Option ℚ) → List (Option ℚ))
    (hf : ∀ x, (f x).length = x.length) (l : List Row) (u : String) :
    entityIGC (transformIGC f l) u = f (entityIGC l u) := by
  rw [transformIGC, entityIGC_transGo]
  have hlen : (f (entityIGC l u)).length =
      0 + (l.filter (fun r => r.Universidade == u)).length := by
    rw [hf, entityIGC, List.length_map, Nat.zero_add]
  rw [map_enumFrom_getD _ _ 0 hlen, List.drop_zero]
theorem transGo_transGo (f g : List (Option ℚ) → List (Option ℚ))
    (hg : ∀ x, (g x).length = x.length) (l : List Row) :
    ∀ (t : List Row) (cnt : String → ℕ),
      transGo f (transformIGC g l) cnt (transGo g l cnt t) =
        transGo (fun x => f (g x)) l cnt t
  | [], cnt => rfl
  | r :: t, cnt => by
    rw [transGo, transGo, transGo, setIGC_setIGC, setIGC_Universidade,
      entityIGC_transformIGC g hg l r.Universidade,
      transGo_transGo f g hg l t (bump cnt r.Universidade)]

theorem transformIGC_transformIGC (f g : List (Option ℚ) → List (Option ℚ))
    (hg : ∀ x, (g x).length = x.length) (l : List Row) :
    transformIGC f (transformIGC g l) = transformIGC (fun x => f (g x)) l :=
  transGo_transGo f g hg l l (fun _ => 0)

theorem transGo_map_key (f : List (Option ℚ) → List (Option ℚ)) (l₀ : List Row) :
    ∀ (t : List Row) (cnt : String → ℕ),
      (transGo f l₀ cnt t).map (fun r => (r.Universidade, r.Ano)) =
        t.map (fun r => (r.Universidade, r.Ano))
  | [], _ => rfl
  | r :: t, cnt => by
    rw [transGo, List.map_cons, List.map_cons,
      transGo_map_key f l₀ t (bump cnt r.Universidade)]
    rfl

theorem panelRowOf_Universidade (lg : ℚ → ℚ) (c : List Row) (r : Row) (k : ℕ) :
    (panelRowOf lg c r k).Universidade = r.Universidade := rfl

theorem panelRowOf_Ano (lg : ℚ → ℚ) (c : List Row) (r : Row) (k : ℕ) :
    (panelRowOf lg c r k).Ano = r.Ano := rfl

theorem panelRowOf_Orcamento (lg : ℚ → ℚ) (c : List Row) (r : Row) (k : ℕ) :
    (panelRowOf lg c r k).Orcamento = r.Orcamento := rfl

theorem panelRowOf_Milhoes (lg : ℚ → ℚ) (c : List Row) (r : Row) (k : ℕ) :
    (panelRowOf lg c r k).Orcamento_Milhoes = r.Orcamento / 1000000 := rfl

theorem panelRowOf_ln_Orcamento (lg : ℚ → ℚ) (c : List Row) (r : Row) (k : ℕ) :
    (panelRowOf lg c r k).ln_Orcamento = pyLog lg (some r.Orcamento) := rfl

theorem panelRowOf_Pos_Teto (lg : ℚ → ℚ) (c : List Row) (r : Row) (k : ℕ) :
    (panelRowOf lg c r k).Pos_Teto = if 2017 ≤ r.Ano then 1 else 0 := rfl

theorem panelRowOf_Interacao (lg : ℚ → ℚ) (c : List Row) (r : Row) (k : ℕ) :
    (panelRowOf lg c r k).Interacao =
      PVal.mul (panelRowOf lg c r k).ln_Orcamento_lag
        (PVal.num ((panelRowOf lg c r k).Pos_Teto : ℚ)) := rfl

theorem panelRowOf_lag (lg : ℚ → ℚ) (c : List Row) (r : Row) (k : ℕ) :
    (panelRowOf lg c r k).ln_Orcamento_lag =
      (if k = 0 then PVal.nan
       else
         match (entityRows c r.Universidade).get? (k - 1) with
         | some rp => pyLog lg (some rp.Orcamento)
         | none => PVal.nan) := rfl

theorem deriveGo_mem (lg : ℚ → ℚ) (c : List Row) :
    ∀ (t : List Row) (cnt : String → ℕ) (r' : PanelRow),
      r' ∈ deriveGo lg c cnt t → ∃ r k, r ∈ t ∧ r' = panelRowOf lg c r k
  | [], _, r', h => by simp [deriveGo] at h
  | r :: t, cnt, r', h => by
    rw [deriveGo, List.mem_cons] at h
    rcases h with h | h
    · exact ⟨r, cnt r.Universidade, List.mem_cons_self r t, h⟩
    · obtain ⟨r₀, k, hm, he⟩ := deriveGo_mem lg c t (bump cnt r.Universidade) r' h
      exact ⟨r₀, k, List.mem_cons_of_mem r hm, he⟩

theorem deriveGo_filter (lg : ℚ → ℚ) (c : List Row) (u : String) :
    ∀ (t : List Row) (cnt : String → ℕ),
      (deriveGo lg c cnt t).filter (fun r => r.Universidade == u) =
        (List.enumFrom (cnt u) (t.filter (fun r => r.Universidade == u))).map
          (fun kr => panelRowOf lg c kr.2 kr.1)
  | [], cnt => rfl
  | r :: t, cnt => by
    by_cases h : r.Universidade = u
    · subst h
      rw [deriveGo, List.filter_cons, List.filter_cons]
      have hb : bump cnt r.Universidade r.Universidade = cnt r.Universidade + 1 := by
        simp [bump]
      rw [deriveGo_filter lg c r.Universidade t (bump cnt r.Universidade), hb]
      simp [panelRowOf_Universidade, List.enumFrom_cons]
    · rw [deriveGo, List.filter_cons, List.filter_cons]
      have hbe : (r.Universidade == u) = false := by
        simp [h]
      have hb : bump cnt r.Universidade u = cnt u := by
        show (if u = r.Universidade then cnt r.Universidade + 1 else cnt u) = cnt u
        rw [if_neg]
        intro hh
        exact h hh.symm
      rw [deriveGo_filter lg c u t (bump cnt r.Universidade), hb]
      simp [panelRowOf_Universidade, hbe]

theorem deriveGo_map_key (lg : ℚ → ℚ) (c : List Row) :
    ∀ (t : List Row) (cnt : String → ℕ),
      (deriveGo lg c cnt t).map (fun r => (r.Universidade, r.Ano)) =
        t.map (fun r => (r.Universidade, r.Ano))
  | [], _ => rfl
  | r :: t, cnt => by
    rw [deriveGo, List.map_cons, List.map_cons,
      deriveGo_map_key lg c t (bump cnt r.Universidade)]
    rfl
theorem rowLE_total (a b : Row) : rowLE a b ∨ rowLE b a := by
  have h3 : List.Lex (· < ·) a.Universidade.data b.Universidade.data ∨
      a.Universidade.data = b.Universidade.data ∨
      List.Lex (· < ·) b.Universidade.data a.Universidade.data := trichotomous _ _
  rcases h3 with h | h | h
  · exact Or.inl (Or.inl h)
  · have hu : a.Universidade = b.Universidade := String.toList_inj.mp h
    rcases Int.le_total a.Ano b.Ano with hy | hy
    · exact Or.inl (Or.inr ⟨hu, hy⟩)
    · exact Or.inr (Or.inr ⟨hu.symm, hy⟩)
  · exact Or.inr (Or.inl h)

theorem rowLE_trans (a b c : Row) (h₁ : rowLE a b) (h₂ : rowLE b c) : rowLE a c := by
  rcases h₁ with h₁ | ⟨he₁, hy₁⟩
  · rcases h₂ with h₂ | ⟨he₂, hy₂⟩
    · exact Or.inl (IsTrans.trans _ _ _ h₁ h₂)
    · exact Or.inl (he₂ ▸ h₁)
  · rcases h₂ with h₂ | ⟨he₂, hy₂⟩
    · exact Or.inl (he₁ ▸ h₂)
    · exact Or.inr ⟨he₁.trans he₂, hy₁.trans hy₂⟩

instance : IsTotal Row rowLE := ⟨rowLE_total⟩

instance : IsTrans Row rowLE := ⟨rowLE_trans⟩

theorem sorted_sortRows (l : List Row) : List.Pairwise rowLE (sortRows l) :=
  List.sorted_insertionSort rowLE l

/-- Key-equality test for one `(Universidade, Ano)` cell pair. -/
def keyEqB (u : String) (y : ℤ) (r : Row) : Bool :=
  r.Universidade == u && r.Ano == y

theorem keyEqB_rowLE {u : String} {y : ℤ} {r x : Row}
    (hr : keyEqB u y r = true) (hx : keyEqB u y x = true) : rowLE r x := by
  simp only [keyEqB, Bool.and_eq_true, beq_iff_eq] at hr hx
  exact Or.inr ⟨hr.1.trans hx.1.symm, le_of_eq (hr.2.trans hx.2.symm)⟩

theorem filter_orderedInsert (u : String) (y : ℤ) (r : Row) :
    ∀ l : List Row,
      (List.orderedInsert rowLE r l).filter (keyEqB u y) =
        if keyEqB u y r then r :: l.filter (keyEqB u y) else l.filter (keyEqB u y)
  | [] => by
    simp [List.orderedInsert, List.filter_cons]
  | x :: xs => by
    rw [List.orderedInsert]
    by_cases hle : rowLE r x
    · rw [if_pos hle, List.filter_cons]
    · rw [if_neg hle, List.filter_cons, filter_orderedInsert u y r xs]
      by_cases hr : keyEqB u y r = true
      · have hx : keyEqB u y x = false := by
          by_contra hxx
          refine hle (keyEqB_rowLE hr ?_)
          revert hxx
          cases keyEqB u y x <;> simp
        rw [List.filter_cons]
        simp [hr, hx]
      · have hr' : keyEqB u y r = false := by
          revert hr
          cases keyEqB u y r <;> simp
        rw [List.filter_cons]
        simp [hr']

theorem filter_sortRows (u : String) (y : ℤ) :
    ∀ l : List Row, (sortRows l).filter (keyEqB u y) = l.filter (keyEqB u y)
  | [] => rfl
  | a :: l => by
    show (List.orderedInsert rowLE a (sortRows l)).filter (keyEqB u y) = _
    rw [filter_orderedInsert u y a (sortRows l), filter_sortRows u y l, List.filter_cons]
theorem interpolateList_getD (l : List (Option ℚ)) (i : ℕ) (h : i < l.length) :
    (interpolateList l).getD i none =
      (match l.getD i none with
       | some v => some v
       | none =>
         match prevVal l i with
         | none => none
         | some (p, vp) =>
           match nextVal l i with
           | none => some vp
           | some (n, vn) =>
             some (vp + (vn - vp) * ((i : ℚ) - (p : ℚ)) / ((n : ℚ) - (p : ℚ)))) := by
  rw [interpolateList, List.getD_eq_getElem?_getD, List.getElem?_map, List.getElem?_range h]
  rfl

theorem ffillList_getD (l : List (Option ℚ)) (i : ℕ) (h : i < l.length) :
    (ffillList l).getD i none =
      (match l.getD i none with
       | some v => some v
       | none => (prevVal l i).map Prod.snd) := by
  rw [ffillList, List.getD_eq_getElem?_getD, List.getElem?_map, List.getElem?_range h]
  rfl

theorem getD_lt_length {l : List (Option ℚ)} {i : ℕ} {v : ℚ}
    (h : l.getD i none = some v) : i < l.length := by
  by_contra hc
  rw [List.getD_eq_getElem?_getD, List.getElem?_eq_none (Nat.le_of_not_lt hc)] at h
  simp at h

theorem interpolateList_getD_some (l : List (Option ℚ)) (i : ℕ) (v : ℚ)
    (h : l.getD i none = some v) : (interpolateList l).getD i none = some v := by
  rw [interpolateList_getD l i (getD_lt_length h), h]

theorem ffillList_getD_some (l : List (Option ℚ)) (i : ℕ) (v : ℚ)
    (h : l.getD i none = some v) : (ffillList l).getD i none = some v := by
  rw [ffillList_getD l i (getD_lt_length h), h]

theorem interpFfill_getD_some (l : List (Option ℚ)) (i : ℕ) (v : ℚ)
    (h : l.getD i none = some v) : (interpFfill l).getD i none = some v :=
  ffillList_getD_some _ i v (interpolateList_getD_some l i v h)

theorem prevVal_none (l : List (Option ℚ)) :
    ∀ i : ℕ, (∀ j, j < i → l.getD j none = none) → prevVal l i = none
  | 0, _ => rfl
  | i + 1, h => by
    rw [prevVal, List.range_succ, List.foldl_append]
    have hi : l.getD i none = none := h i (Nat.lt_succ_self i)
    simp only [List.foldl_cons, List.foldl_nil, hi]
    exact prevVal_none l i (fun j hj => h j (Nat.lt_succ_of_lt hj))

theorem interpFfill_interior (l : List (Option ℚ)) (i p n : ℕ) (vp vn : ℚ)
    (hm : l.getD i none = none) (hp : prevVal l i = some (p, vp))
    (hn : nextVal l i = some (n, vn)) (hi : i < l.length) :
    (interpFfill l).getD i none =
      some (vp + (vn - vp) * ((i : ℚ) - (p : ℚ)) / ((n : ℚ) - (p : ℚ))) := by
  have h1 : (interpolateList l).getD i none =
      some (vp + (vn - vp) * ((i : ℚ) - (p : ℚ)) / ((n : ℚ) - (p : ℚ))) := by
    rw [interpolateList_getD l i hi, hm, hp, hn]
  exact ffillList_getD_some _ i _ h1

theorem interpFfill_trailing (l : List (Option ℚ)) (i p : ℕ) (vp : ℚ)
    (hm : l.getD i none = none) (hp : prevVal l i = some (p, vp))
    (hn : nextVal l i = none) (hi : i < l.length) :
    (interpFfill l).getD i none = some vp := by
  have h1 : (interpolateList l).getD i none = some vp := by
    rw [interpolateList_getD l i hi, hm, hp, hn]
  exact ffillList_getD_some _ i _ h1

theorem interpFfill_leading (l : List (Option ℚ)) (i : ℕ)
    (h : ∀ j, j ≤ i → l.getD j none = none) :
    (interpFfill l).getD i none = none := by
  by_cases hi : i < l.length
  · have hpre : ∀ j, j ≤ i → (interpolateList l).getD j none = none := by
      intro j hj
      have hjlen : j < l.length := lt_of_le_of_lt hj hi
      rw [interpolateList_getD l j hjlen, h j hj,
        prevVal_none l j (fun k hk => h k (le_of_lt (lt_of_lt_of_le hk hj)))]
    rw [interpFfill]
    have hilen2 : i < (interpolateList l).length := by
      rw [length_interpolateList]
      exact hi
    rw [ffillList_getD _ i hilen2, hpre i le_rfl,
      prevVal_none (interpolateList l) i (fun k hk => hpre k (le_of_lt hk))]
    rfl
  · rw [List.getD_eq_getElem?_getD, List.getElem?_eq_none]
    · rfl
    · rw [length_interpFfill]
      exact Nat.le_of_not_lt hi
theorem deriveRows_filter_getElem? (lg : ℚ → ℚ) (c : List Row) (u : String) (k : ℕ) :
    ((deriveRows lg c).filter (fun r => r.Universidade == u))[k]? =
      ((entityRows c u)[k]?).map (fun r => panelRowOf lg c r k) := by
  rw [deriveRows, deriveGo_filter lg c u c (fun _ => 0)]
  rw [List.getElem?_map, List.getElem?_enumFrom]
  simp only [entityRows]
  cases h : (c.filter (fun r => r.Universidade == u))[k]? with
  | none => rfl
  | some r => simp

theorem mem_carregar_dados {lg : ℚ → ℚ} {rows : List Row} {r : PanelRow} :
    r ∈ carregar_dados lg rows ↔ r ∈ appDerived lg rows ∧ hasNA r = false := by
  rw [carregar_dados, List.mem_filter]
  simp

theorem appDerived_mem (lg : ℚ → ℚ) (rows : List Row) (r' : PanelRow)
    (h : r' ∈ appDerived lg rows) :
    ∃ r k, r ∈ transformIGC interpFfill (sortRows rows) ∧
      r' = panelRowOf lg (transformIGC interpFfill (sortRows rows)) r k := by
  obtain ⟨r, k, hm, he⟩ := deriveGo_mem lg _ _ _ r' h
  exact ⟨r, k, hm, he⟩

/-- A concrete stand-in for the abstract logarithm when a theorem is
instantiated on explicit data. -/
def lnStub : ℚ → ℚ := fun _ => 0

/-- C9: in every row of the built panel, `Orcamento_Milhoes` is exactly
`Orcamento / 1_000_000`, and for positive `Orcamento` the `ln_Orcamento`
cell is the (abstract) natural logarithm `lg` applied to `Orcamento`. -/
theorem c9_derived_consistency (lg : ℚ → ℚ) (rows : List Row) (r : PanelRow)
    (h : r ∈ carregar_dados lg rows) :
    r.Orcamento_Milhoes = r.Orcamento / 1000000 ∧
      (0 < r.Orcamento → r.ln_Orcamento = PVal.num (lg r.Orcamento)) := by
  obtain ⟨hd, -⟩ := mem_carregar_dados.mp h
  obtain ⟨r₀, k, -, rfl⟩ := appDerived_mem lg rows r hd
  refine ⟨rfl, fun hpos => ?_⟩
  rw [panelRowOf_ln_Orcamento, panelRowOf_Orcamento]
  rw [panelRowOf_Orcamento] at hpos
  simp [pyLog, hpos]

theorem c9_witness :
    (⟨"U", 2017, 100, some 10, 100 / 1000000, PVal.num 0, PVal.num 0, PVal.num 0, 1,
        PVal.num 0⟩ : PanelRow).Orcamento_Milhoes =
      (⟨"U", 2017, 100, some 10, 100 / 1000000, PVal.num 0, PVal.num 0, PVal.num 0, 1,
        PVal.num 0⟩ : PanelRow).Orcamento / 1000000 ∧
    (0 < (⟨"U", 2017, 100, some 10, 100 / 1000000, PVal.num 0, PVal.num 0, PVal.num 0, 1,
        PVal.num 0⟩ : PanelRow).Orcamento →
      (⟨"U", 2017, 100, some 10, 100 / 1000000, PVal.num 0, PVal.num 0, PVal.num 0, 1,
        PVal.num 0⟩ : PanelRow).ln_Orcamento =
        PVal.num (lnStub (⟨"U", 2017, 100, some 10, 100 / 1000000, PVal.num 0, PVal.num 0,
          PVal.num 0, 1, PVal.num 0⟩ : PanelRow).Orcamento)) :=
  c9_derived_consistency lnStub
    [⟨"U", 2016, 100, some 10⟩, ⟨"U", 2017, 100, some 10⟩] _
    (by norm_num [carregar_dados, appDerived, deriveRows, deriveGo, panelRowOf, transformIGC,
      transGo, sortRows, List.insertionSort, List.orderedInsert, rowLE, interpFfill,
      interpolateList, ffillList, prevVal, nextVal, setIGC, bump, entityIGC, entityRows,
      hasNA, pyLog, lnStub, PVal.mul, PVal.isNan, List.range, List.range.loop])
/-- C3: in every row of the built panel, `Pos_Teto` is `1` iff
`Ano >= 2017` and `0` otherwise; `Interacao` is `ln_Orcamento_lag *
Pos_Teto` in the lagged variant (`src/app.py`), and `ln_Orcamento *
Pos_Teto` in the contemporaneous variant
(`analise_exploratoria.py`). -/
theorem c3_pos_teto_interacao :
    (∀ (lg : ℚ → ℚ) (rows : List Row) (r : PanelRow), r ∈ carregar_dados lg rows →
      ((r.Pos_Teto = 1 ↔ 2017 ≤ r.Ano) ∧ (r.Pos_Teto = 0 ↔ r.Ano < 2017) ∧
        r.Interacao = PVal.mul r.ln_Orcamento_lag (PVal.num (r.Pos_Teto : ℚ)))) ∧
    (∀ (lg : ℚ → ℚ) (rows : List Row) (r : AnaRow), r ∈ analise_df lg rows →
      ((r.Pos_Teto = 1 ↔ 2017 ≤ r.Ano) ∧ (r.Pos_Teto = 0 ↔ r.Ano < 2017) ∧
        r.Interacao = PVal.mul r.ln_Orcamento (PVal.num (r.Pos_Teto : ℚ)))) := by
  constructor
  · intro lg rows r h
    obtain ⟨hd, -⟩ := mem_carregar_dados.mp h
    obtain ⟨r₀, k, -, rfl⟩ := appDerived_mem lg rows r hd
    rw [panelRowOf_Interacao, panelRowOf_Pos_Teto, panelRowOf_Ano]
    by_cases hy : 2017 ≤ r₀.Ano
    · rw [if_pos hy]
      refine ⟨⟨fun _ => hy, fun _ => rfl⟩, ⟨fun h1 => absurd h1 (by norm_num), ?_⟩, rfl⟩
      intro hlt
      exact absurd hy (not_le.mpr hlt)
    · rw [if_neg hy]
      refine ⟨⟨fun h0 => absurd h0 (by norm_num), fun hc => absurd hc hy⟩,
        ⟨fun _ => Int.not_le.mp hy, fun _ => rfl⟩, rfl⟩
  · intro lg rows r h
    rw [analise_df, List.mem_map] at h
    obtain ⟨r₀, -, rfl⟩ := h
    rw [anaRowOf]
    by_cases hy : 2017 ≤ r₀.Ano
    · rw [if_pos hy]
      refine ⟨⟨fun _ => hy, fun _ => rfl⟩, ⟨fun h1 => absurd h1 (by norm_num), ?_⟩, rfl⟩
      intro hlt
      exact absurd hy (not_le.mpr hlt)
    · rw [if_neg hy]
      refine ⟨⟨fun h0 => absurd h0 (by norm_num), fun hc => absurd hc hy⟩,
        ⟨fun _ => Int.not_le.mp hy, fun _ => rfl⟩, rfl⟩

theorem c3_witness :
    ((⟨"U", 2017, 100, some 10, 100 / 1000000, PVal.num 0, PVal.num 0, PVal.num 0, 1,
        PVal.num 0⟩ : PanelRow).Pos_Teto = 1 ↔
      2017 ≤ (⟨"U", 2017, 100, some 10, 100 / 1000000, PVal.num 0, PVal.num 0, PVal.num 0, 1,
        PVal.num 0⟩ : PanelRow).Ano) ∧
    ((⟨"U", 2017, 100, some 10, 100 / 1000000, PVal.num 0, PVal.num 0, PVal.num 0, 1,
        PVal.num 0⟩ : PanelRow).Pos_Teto = 0 ↔
      (⟨"U", 2017, 100, some 10, 100 / 1000000, PVal.num 0, PVal.num 0, PVal.num 0, 1,
        PVal.num 0⟩ : PanelRow).Ano < 2017) ∧
    (⟨"U", 2017, 100, some 10, 100 / 1000000, PVal.num 0, PVal.num 0, PVal.num 0, 1,
        PVal.num 0⟩ : PanelRow).Interacao =
      PVal.mul (⟨"U", 2017, 100, some 10, 100 / 1000000, PVal.num 0, PVal.num 0, PVal.num 0, 1,
        PVal.num 0⟩ : PanelRow).ln_Orcamento_lag
        (PVal.num ((⟨"U", 2017, 100, some 10, 100 / 1000000, PVal.num 0, PVal.num 0, PVal.num 0,
          1, PVal.num 0⟩ : PanelRow).Pos_Teto : ℚ)) :=
  c3_pos_teto_interacao.1 lnStub
    [⟨"U", 2016, 100, some 10⟩, ⟨"U", 2017, 100, some 10⟩] _
    (by norm_num [carregar_dados, appDerived, deriveRows, deriveGo, panelRowOf, transformIGC,
      transGo, sortRows, List.insertionSort, List.orderedInsert, rowLE, interpFfill,
      interpolateList, ffillList, prevVal, nextVal, setIGC, bump, entityIGC, entityRows,
      hasNA, pyLog, lnStub, PVal.mul, PVal.isNan, List.range, List.range.loop])
theorem deriveRows_filter_length (lg : ℚ → ℚ) (c : List Row) (u : String) :
    ((deriveRows lg c).filter (fun r => r.Universidade == u)).length =
      (entityRows c u).length := by
  rw [deriveRows, deriveGo_filter lg c u c (fun _ => 0)]
  simp [entityRows]

theorem pval_isNan_false {v : PVal} : PVal.isNan v = false ↔ v ≠ PVal.nan := by
  cases v <;> simp [PVal.isNan]

theorem entityRows_getElem_Universidade {c : List Row} {u : String} {k : ℕ}
    (hk : k < (entityRows c u).length) : (entityRows c u)[k].Universidade = u := by
  have hm : (entityRows c u)[k] ∈ entityRows c u := List.getElem_mem hk
  have hm2 : (entityRows c u)[k] ∈ c.filter (fun r => r.Universidade == u) := hm
  rw [List.mem_filter] at hm2
  simpa using hm2.2

/-- C6: in the lagged variant (`src/app.py`), within each entity the
`ln_Orcamento_lag` column is the entity's `ln_Orcamento` series shifted
down by one position — the entity's first row gets `NaN`, row `k+1` gets
the `ln_Orcamento` of row `k` — and every row still holding a `NaN` in any
derived cell is removed by `dropna` before the frame is returned. -/
theorem c6_lag_structure (lg : ℚ → ℚ) (rows : List Row) (u : String) :
    (((appDerived lg rows).filter (fun r => r.Universidade == u)).map
        (fun r => r.ln_Orcamento_lag)).getD 0 PVal.nan = PVal.nan ∧
    (∀ k : ℕ,
      k + 1 < ((appDerived lg rows).filter (fun r => r.Universidade == u)).length →
      (((appDerived lg rows).filter (fun r => r.Universidade == u)).map
          (fun r => r.ln_Orcamento_lag)).getD (k + 1) PVal.nan =
        (((appDerived lg rows).filter (fun r => r.Universidade == u)).map
            (fun r => r.ln_Orcamento)).getD k PVal.nan) ∧
    (∀ r ∈ carregar_dados lg rows,
      r.IGC ≠ none ∧ r.ln_Orcamento ≠ PVal.nan ∧ r.ln_IGC ≠ PVal.nan ∧
        r.ln_Orcamento_lag ≠ PVal.nan ∧ r.Interacao ≠ PVal.nan) := by
  refine ⟨?_, ?_, ?_⟩
  · rw [List.getD_eq_getElem?_getD, List.getElem?_map, appDerived,
      deriveRows_filter_getElem?]
    cases h : (entityRows (transformIGC interpFfill (sortRows rows)) u)[0]? with
    | none => rfl
    | some r => simp [panelRowOf_lag]
  · intro k hk
    rw [appDerived] at hk ⊢
    set c := transformIGC interpFfill (sortRows rows) with hc
    rw [deriveRows_filter_length] at hk
    have hk1 : k + 1 < (entityRows c u).length := hk
    have hk0 : k < (entityRows c u).length := Nat.lt_of_succ_lt hk1
    rw [List.getD_eq_getElem?_getD, List.getD_eq_getElem?_getD,
      List.getElem?_map, List.getElem?_map, deriveRows_filter_getElem?,
      deriveRows_filter_getElem?, List.getElem?_eq_getElem hk1,
      List.getElem?_eq_getElem hk0]
    simp only [Option.map_some', Option.getD_some]
    rw [panelRowOf_lag, panelRowOf_ln_Orcamento]
    rw [entityRows_getElem_Universidade hk1]
    have hget : (entityRows c u).get? k = some ((entityRows c u)[k]) := by
      rw [List.get?_eq_getElem?, List.getElem?_eq_getElem hk0]
    rw [if_neg (Nat.succ_ne_zero k), Nat.add_sub_cancel, hget]
  · intro r h
    obtain ⟨-, hna⟩ := mem_carregar_dados.mp h
    rw [hasNA] at hna
    simp only [Bool.or_eq_false_iff] at hna
    obtain ⟨⟨⟨⟨h1, h2⟩, h3⟩, h4⟩, h5⟩ := hna
    refine ⟨?_, pval_isNan_false.mp h2, pval_isNan_false.mp h3,
      pval_isNan_false.mp h4, pval_isNan_false.mp h5⟩
    cases hI : r.IGC with
    | none => rw [hI] at h1; simp at h1
    | some v => simp [hI]

/-- Sort key order on the rows of the finished panel. -/
def panelLE (a b : PanelRow) : Prop :=
  List.Lex (· < ·) a.Universidade.data b.Universidade.data ∨
    (a.Universidade = b.Universidade ∧ a.Ano ≤ b.Ano)

/-- C4: the built panel is non-decreasing in the `(Universidade, Ano)`
lexicographic key, and the sorting step is stable: for every key value the
subsequence of input rows carrying exactly that key is preserved in its
original order. -/
theorem c4_sort_invariant (lg : ℚ → ℚ) (rows : List Row) :
    List.Pairwise panelLE (carregar_dados lg rows) ∧
    (∀ (u : String) (y : ℤ),
      (sortRows rows).filter (keyEqB u y) = rows.filter (keyEqB u y)) := by
  constructor
  · have h1 : List.Pairwise rowLE (sortRows rows) := sorted_sortRows rows
    have h2 : List.Pairwise
        (fun a b : String × ℤ =>
          List.Lex (· < ·) a.1.data b.1.data ∨ (a.1 = b.1 ∧ a.2 ≤ b.2))
        ((sortRows rows).map (fun r => (r.Universidade, r.Ano))) :=
      List.pairwise_map.mpr h1
    have h3 : (transformIGC interpFfill (sortRows rows)).map
        (fun r => (r.Universidade, r.Ano)) =
        (sortRows rows).map (fun r => (r.Universidade, r.Ano)) :=
      transGo_map_key interpFfill (sortRows rows) (sortRows rows) (fun _ => 0)
    have h5 : (deriveRows lg (transformIGC interpFfill (sortRows rows))).map
        (fun r => (r.Universidade, r.Ano)) =
        (transformIGC interpFfill (sortRows rows)).map
          (fun r => (r.Universidade, r.Ano)) :=
      deriveGo_map_key lg _ _ (fun _ => 0)
    have h6 : List.Pairwise
        (fun a b : String × ℤ =>
          List.Lex (· < ·) a.1.data b.1.data ∨ (a.1 = b.1 ∧ a.2 ≤ b.2))
        ((appDerived lg rows).map (fun r => (r.Universidade, r.Ano))) := by
      rw [appDerived, h5, h3]
      exact h2
    have h7 : List.Pairwise
        (fun a b : PanelRow =>
          List.Lex (· < ·) a.Universidade.data b.Universidade.data ∨
            (a.Universidade = b.Universidade ∧ a.Ano ≤ b.Ano))
        (appDerived lg rows) := List.pairwise_map.mp h6
    exact h7.filter _
  · intro u y
    exact filter_sortRows u y rows

theorem c6_witness :
    (((appDerived lnStub [⟨"U", 2016, 100, some 10⟩, ⟨"U", 2017, 100, some 10⟩]).filter
        (fun r => r.Universidade == "U")).map (fun r => r.ln_Orcamento_lag)).getD 1 PVal.nan =
      (((appDerived lnStub [⟨"U", 2016, 100, some 10⟩, ⟨"U", 2017, 100, some 10⟩]).filter
        (fun r => r.Universidade == "U")).map (fun r => r.ln_Orcamento)).getD 0 PVal.nan :=
  (c6_lag_structure lnStub [⟨"U", 2016, 100, some 10⟩, ⟨"U", 2017, 100, some 10⟩] "U").2.1 0
    (by norm_num [appDerived, deriveRows, deriveGo, panelRowOf, transformIGC,
      transGo, sortRows, List.insertionSort, List.orderedInsert, rowLE, interpFfill,
      interpolateList, ffillList, prevVal, nextVal, setIGC, bump, entityIGC, entityRows,
      pyLog, lnStub, PVal.mul, List.range, List.range.loop])
/-- C10: the two drafts' shared cleaning steps agree: the strip/rename
maps are the same function, and on every input the values of the columns
`Universidade`, `Ano`, `Orcamento`, `IGC`, `ln_Orcamento`, `ln_IGC`
produced by `src/app.py` (one transform `x.interpolate().ffill()`) and by
`analise_exploratoria.py` (a transform with `interpolate`, then a second
transform with `ffill`) coincide row by row. -/
theorem c10_shared_cleaning_equal :
    (∀ c : String, rename_app c = rename_ae c) ∧
    (∀ cols : List String, normalizeColumns_app cols = normalizeColumns_ae cols) ∧
    (∀ (lg : ℚ → ℚ) (rows : List Row), sharedCleanApp lg rows = sharedCleanAE lg rows) := by
  refine ⟨fun c => rfl, fun cols => rfl, fun lg rows => ?_⟩
  rw [sharedCleanApp, sharedCleanAE,
    transformIGC_transformIGC ffillList interpolateList length_interpolateList]
  rfl

/-- C7 (amended): ingestion control flow: a `.csv` name tries the comma
parse first, retries with the semicolon/Latin-1 parse exactly when the
comma parse fails, and any other name is parsed as a spreadsheet (first
sheet); the step fails exactly when the attempts relevant for the name
all fail.  On the delimited-text path a parse that would yield zero
columns raises (`EmptyDataError`), so it counts as a failed attempt and
a table returned for a `.csv` name has at least one column (hypotheses
`hc`, `hs`); no such guarantee holds on the spreadsheet path, where
`read_excel` can return a zero-column frame without raising. -/
theorem c7_ingest_fallback (name : String)
    (commaParse semiParse excelParse : Option ParsedTable)
    (hc : ∀ t, commaParse = some t → t.cols ≠ [])
    (hs : ∀ t, semiParse = some t → t.cols ≠ []) :
    (∀ t, endsWithCsv name = true → commaParse = some t →
      ingest name commaParse semiParse excelParse = some t) ∧
    (endsWithCsv name = true → commaParse = none →
      ingest name commaParse semiParse excelParse = semiParse) ∧
    (endsWithCsv name = false → ingest name commaParse semiParse excelParse = excelParse) ∧
    (ingest name commaParse semiParse excelParse = none ↔
      ((endsWithCsv name = true ∧ commaParse = none ∧ semiParse = none) ∨
       (endsWithCsv name = false ∧ excelParse = none))) ∧
    (∀ t, endsWithCsv name = true → ingest name commaParse semiParse excelParse = some t →
      t.cols ≠ []) := by
  refine ⟨?_, ?_, ?_, ?_, ?_⟩
  · intro t hcsv hcp
    simp [ingest, hcsv, hcp]
  · intro hcsv hcp
    simp [ingest, hcsv, hcp]
  · intro hcsv
    simp [ingest, hcsv]
  · cases hE : endsWithCsv name
    · simp [ingest, hE]
    · cases hcp : commaParse with
      | none => simp [ingest, hE, hcp]
      | some t => simp [ingest, hE, hcp]
  · intro t hE ht
    cases hcp : commaParse with
    | some t' =>
      have h2 : t' = t := by
        simp [ingest, hE, hcp] at ht
        exact ht
      exact h2 ▸ hc t' hcp
    | none =>
      have h2 : semiParse = some t := by
        simpa [ingest, hE, hcp] using ht
      exact hs t h2

theorem c7_witness :
    ingest "d.csv" none (some ⟨["A"], []⟩) none = some ⟨["A"], []⟩ :=
  (c7_ingest_fallback "d.csv" none (some ⟨["A"], []⟩) none
    (fun _ h => Option.noConfusion h)
    (fun t h => by
      rw [← Option.some.inj h]
      decide)).2.1 (by decide) rfl

/-- C7 as literally stated is false on the code's spreadsheet path:
`read_excel` on a workbook whose first sheet is empty returns a
zero-column frame without raising, so for a non-`.csv` name whose
spreadsheet parse yields the zero-column table, ingest succeeds and
returns that zero-column table instead of failing. -/
theorem c7_counterexample :
    ingest "data.xlsx" none none (some ⟨[], []⟩) = some ⟨[], []⟩ ∧
    (⟨[], []⟩ : ParsedTable).cols = [] := by
  constructor
  · decide
  · rfl

/-- C8: a normalized table missing a required canonical column makes
panel construction fail naming a missing required column (the `KeyError`
of the first statement touching it); with `Universidade` and `Ano`
present and `IGC` absent, the error names exactly `IGC`; when no required
column is missing, construction returns the panel. -/
theorem c8_schema_error (lg : ℚ → ℚ) (cols : List String) (rows : List Row) :
    (("Universidade" ∈ cols ∧ "Ano" ∈ cols) → "IGC" ∉ cols →
      buildPanelChecked lg cols rows = Except.error "IGC") ∧
    (∀ m, m ∈ requiredColumns → m ∉ cols →
      ∃ c, buildPanelChecked lg cols rows = Except.error c ∧
        c ∈ requiredColumns ∧ c ∉ cols) ∧
    ((∀ c ∈ requiredColumns, c ∈ cols) →
      buildPanelChecked lg cols rows = Except.ok (carregar_dados lg rows)) := by
  refine ⟨?_, ?_, ?_⟩
  · intro hua higc
    have hU : (!(cols.contains "Universidade")) = false := by
      simp [hua.1]
    have hA : (!(cols.contains "Ano")) = false := by
      simp [hua.2]
    have hI : (!(cols.contains "IGC")) = true := by
      simp [higc]
    simp only [buildPanelChecked, requiredColumns, List.find?, hU, hA, hI]
  · intro m hmr hmc
    have hsome : (requiredColumns.find? (fun c => !(cols.contains c))).isSome := by
      rw [List.find?_isSome]
      refine ⟨m, hmr, ?_⟩
      simp [hmc]
    cases hfind : requiredColumns.find? (fun c => !(cols.contains c)) with
    | none =>
      rw [hfind] at hsome
      simp at hsome
    | some c =>
      have hp := List.find?_some hfind
      simp at hp
      refine ⟨c, ?_, List.mem_of_find?_eq_some hfind, hp⟩
      rw [buildPanelChecked, hfind]
  · intro hall
    have hnone : requiredColumns.find? (fun c => !(cols.contains c)) = none := by
      rw [List.find?_eq_none]
      intro x hx
      simp [hall x hx]
    rw [buildPanelChecked, hnone]

theorem c8_witness :
    buildPanelChecked lnStub ["Universidade", "Ano", "Orcamento"] [] =
      Except.error "IGC" :=
  (c8_schema_error lnStub ["Universidade", "Ano", "Orcamento"] []).1
    ⟨by decide, by decide⟩ (by decide)
/-- C2 fails on the code: with a row holding `Orcamento = 0` (entity "U",
year 2016, surrounded by ordinary rows so that no other cell is missing),
the returned panel still contains that row, its `ln_Orcamento` is the
numeric `-inf` that `np.log(0)` produces, and `-inf` is not a missing
value, so `dropna` does not act on it: the value flows on silently
instead of being flagged per a domain-error policy or rejected. -/
theorem c2_zero_budget_behavior :
    ((carregar_dados lnStub
        [⟨"U", 2015, 100, some 10⟩, ⟨"U", 2016, 0, some 10⟩,
         ⟨"U", 2017, 100, some 10⟩]).filter
      (fun r => r.Orcamento == 0)).map (fun r => r.ln_Orcamento) = [PVal.ninf] ∧
    PVal.isNan PVal.ninf = false := by
  constructor
  · norm_num [carregar_dados, appDerived, deriveRows, deriveGo, panelRowOf, transformIGC,
      transGo, sortRows, List.insertionSort, List.orderedInsert, rowLE, interpFfill,
      interpolateList, ffillList, prevVal, nextVal, setIGC, bump, entityIGC, entityRows,
      hasNA, pyLog, lnStub, PVal.mul, PVal.isNan, List.range, List.range.loop,
      List.filter_cons]
  · rfl

/-- C5: entries of an entity's `IGC` series that have no observed value at
or before them are left missing by the cleaning step (no back-fill); in
particular `[missing, 10, 12]` cleans to a sequence whose first entry is
still missing. -/
theorem c5_leading_gap :
    (∀ (rows : List Row) (u : String) (i : ℕ),
      (∀ j, j ≤ i → (entityIGC (sortRows rows) u).getD j none = none) →
      (entityIGC (transformIGC interpFfill (sortRows rows)) u).getD i none = none) ∧
    entityIGC (transformIGC interpFfill (sortRows
      [⟨"U", 2018, 100, none⟩, ⟨"U", 2019, 100, some 10⟩, ⟨"U", 2020, 100, some 12⟩])) "U" =
      [none, some 10, some 12] := by
  constructor
  · intro rows u i h
    rw [entityIGC_transformIGC interpFfill length_interpFfill]
    exact interpFfill_leading _ i h
  · decide

theorem c5_witness :
    (entityIGC (transformIGC interpFfill (sortRows
      [⟨"U", 2018, 100, none⟩, ⟨"U", 2019, 100, some 10⟩,
       ⟨"U", 2020, 100, some 12⟩])) "U").getD 0 none = none :=
  c5_leading_gap.1
    [⟨"U", 2018, 100, none⟩, ⟨"U", 2019, 100, some 10⟩, ⟨"U", 2020, 100, some 12⟩] "U" 0
    (by
      intro j hj
      have hj0 : j = 0 := Nat.le_zero.mp hj
      subst hj0
      decide)

/-- C1 (amended): the cleaning step fills an interior missing `IGC` entry
by linear interpolation against the row position within the entity's
time-ordered subsequence — positions are treated as equally spaced, which
agrees with interpolation against the time index exactly when the
observed years are consecutive — and fills trailing missing entries by
carrying the last observed value forward; in particular
`[10, missing, 14, missing]` at years 2018-2021 becomes
`[10, 12, 14, 14]`. -/
theorem c1_interpolation :
    (∀ (rows : List Row) (u : String) (i p n : ℕ) (vp vn : ℚ),
      (entityIGC (sortRows rows) u).getD i none = none →
      prevVal (entityIGC (sortRows rows) u) i = some (p, vp) →
      nextVal (entityIGC (sortRows rows) u) i = some (n, vn) →
      i < (entityIGC (sortRows rows) u).length →
      (entityIGC (transformIGC interpFfill (sortRows rows)) u).getD i none =
        some (vp + (vn - vp) * ((i : ℚ) - (p : ℚ)) / ((n : ℚ) - (p : ℚ)))) ∧
    (∀ (rows : List Row) (u : String) (i p : ℕ) (vp : ℚ),
      (entityIGC (sortRows rows) u).getD i none = none →
      prevVal (entityIGC (sortRows rows) u) i = some (p, vp) →
      nextVal (entityIGC (sortRows rows) u) i = none →
      i < (entityIGC (sortRows rows) u).length →
      (entityIGC (transformIGC interpFfill (sortRows rows)) u).getD i none = some vp) ∧
    entityIGC (transformIGC interpFfill (sortRows
      [⟨"U", 2018, 100, some 10⟩, ⟨"U", 2019, 100, none⟩,
       ⟨"U", 2020, 100, some 14⟩, ⟨"U", 2021, 100, none⟩])) "U" =
      [some 10, some 12, some 14, some 14] := by
  refine ⟨?_, ?_, ?_⟩
  · intro rows u i p n vp vn hm hp hn hi
    rw [entityIGC_transformIGC interpFfill length_interpFfill]
    exact interpFfill_interior _ i p n vp vn hm hp hn hi
  · intro rows u i p vp hm hp hn hi
    rw [entityIGC_transformIGC interpFfill length_interpFfill]
    exact interpFfill_trailing _ i p vp hm hp hn hi
  · norm_num [entityIGC, transformIGC, transGo, sortRows, List.insertionSort,
      List.orderedInsert, rowLE, interpFfill, interpolateList, ffillList, prevVal, nextVal,
      setIGC, bump, List.range, List.range.loop]

theorem c1_witness :
    (entityIGC (transformIGC interpFfill (sortRows
      [⟨"U", 2018, 100, some 10⟩, ⟨"U", 2019, 100, none⟩,
       ⟨"U", 2020, 100, some 14⟩, ⟨"U", 2021, 100, none⟩])) "U").getD 1 none =
      some (10 + (14 - 10) * (((1 : ℕ) : ℚ) - ((0 : ℕ) : ℚ)) /
        (((2 : ℕ) : ℚ) - ((0 : ℕ) : ℚ))) :=
  c1_interpolation.1
    [⟨"U", 2018, 100, some 10⟩, ⟨"U", 2019, 100, none⟩,
     ⟨"U", 2020, 100, some 14⟩, ⟨"U", 2021, 100, none⟩] "U" 1 0 2 10 14
    (by decide) (by decide) (by decide) (by decide)

/-- C1 as literally stated is false on the code: with observed years
2018, 2021 and a missing value at year 2020, interpolation against the
time index would give `10 + (13 - 10) * (2020 - 2018) / (2021 - 2018) =
12`, but the pipeline (pandas `method='linear'`, equally spaced
positions) produces `23/2`. -/
theorem c1_counterexample :
    entityIGC (transformIGC interpFfill (sortRows
      [⟨"U", 2018, 100, some 10⟩, ⟨"U", 2020, 100, none⟩,
       ⟨"U", 2021, 100, some 13⟩])) "U" = [some 10, some (23 / 2), some 13] ∧
    ¬ ((23 : ℚ) / 2 = 10 + (13 - 10) * (((2020 : ℚ) - 2018) / ((2021 : ℚ) - 2018))) := by
  constructor
  · norm_num [entityIGC, transformIGC, transGo, sortRows, List.insertionSort,
      List.orderedInsert, rowLE, interpFfill, interpolateList, ffillList, prevVal, nextVal,
      setIGC, bump, List.range, List.range.loop]
  · norm_num
